import Mathlib

/-!
# Tekton CLI: target resolution of `tkn pipelinerun describe`

A shallow embedding of `pkg/cmd/pipelinerun/describe.go` (the `RunE` closure of
`describeCommand` and `askPipelineRunName`) together with the table renderer
exercised by `pkg/cmd/eventlistener/list_test.go`.

The command talks to the cluster, the terminal and the process environment only
through calls into other packages.  Those calls are gathered in the record
`World`; every call that is observable from outside is appended to a trace of
`Event`s, so that statements such as "exactly one list call is made" or "no
prompt is shown" are statements about the trace.
-/

namespace Tekton

/-! ## Go values -/

/-- Go `error` value, identified by its message. -/
structure GoError where
  msg : String
deriving DecidableEq, Repr

/-- Go slice indexing `xs[i]`: `none` stands for the run-time panic
"index out of range". -/
def index {α : Type} (xs : List α) (i : Nat) : Option α :=
  xs[i]?

/-- Go `unicode.IsSpace`: the Latin-1 spaces `\t \n \v \f \r`, space, U+0085,
U+00A0, and the other code points with the Unicode White_Space property. -/
def isSpace (c : Char) : Bool :=
  (9 ≤ c.toNat && c.toNat ≤ 13) || c.toNat == 0x20 || c.toNat == 0x85 || c.toNat == 0xA0
    || c.toNat == 0x1680 || (0x2000 ≤ c.toNat && c.toNat ≤ 0x200A)
    || c.toNat == 0x2028 || c.toNat == 0x2029 || c.toNat == 0x202F
    || c.toNat == 0x205F || c.toNat == 0x3000

/-- Scanner behind `Fields`: `cur` is the field being read, most recent
character first.  A white space character closes the current field (if one is
open); the end of the input closes it as well. -/
def fieldsAux : List Char → List Char → List (List Char)
  | [], cur => if cur.isEmpty then [] else [cur.reverse]
  | c :: cs, cur =>
    if isSpace c then
      if cur.isEmpty then fieldsAux cs [] else cur.reverse :: fieldsAux cs []
    else fieldsAux cs (c :: cur)

/-- Go `strings.Fields`: splits `s` around each run of one or more white space
characters (`unicode.IsSpace`); the result is empty when `s` holds only white
space. -/
def Fields (s : String) : List String :=
  (fieldsAux s.data []).map String.mk

/-! ## Command line of `describe` -/

/-- Constant `defaultDescribeLimit` (describe.go, line 35). -/
def defaultDescribeLimit : Int := 5

/-- One `tkn pipelinerun describe` invocation as parsed from the command line:
the values of the flags registered at lines 121-125 and the positional
arguments.  `limit = none` means `--limit` was not given. -/
structure Invocation where
  last : Bool
  limit : Option Int
  fzf : Bool
  output : String
  args : List String
deriving DecidableEq, Repr

/-- Value held by a command-line flag. -/
inductive FlagValue where
  | bool (b : Bool)
  | int (n : Int)
  | string (s : String)
deriving DecidableEq, Repr

/-- A registered flag with its current value. -/
structure Flag where
  name : String
  value : FlagValue
deriving DecidableEq, Repr

/-- Type name of a flag value as the flag library reports it. -/
def FlagValue.typeName : FlagValue → String
  | .bool _ => "bool"
  | .int _ => "int"
  | .string _ => "string"

/-- The local flag set of the command after parsing: `--last`, `--limit`
(default `defaultDescribeLimit`) and `--fzf` (lines 121-123), and the
`--output` flag that the print flags `f` add at line 125 (the other print flags
are never read by `RunE`). -/
def localFlags (inv : Invocation) : List Flag :=
  [⟨"last", .bool inv.last⟩,
   ⟨"limit", .int (inv.limit.getD defaultDescribeLimit)⟩,
   ⟨"fzf", .bool inv.fzf⟩,
   ⟨"output", .string inv.output⟩]

/-- Flag-set lookup `GetString(name)`: fails when the flag is not registered or
does not hold a string. -/
def GetString (fs : List Flag) (name : String) : Except GoError String :=
  match fs.find? (fun f => f.name == name) with
  | none => .error ⟨"flag accessed but not defined: " ++ name⟩
  | some f =>
    match f.value with
    | .string s => .ok s
    | v => .error ⟨"trying to get string value of flag of type " ++ v.typeName⟩

/-- The fields of `options.DescribeOptions` that `describe` reads or writes. -/
structure DescribeOptions where
  PipelineRunName : String
  Limit : Int
  Fzf : Bool
  Last : Bool
deriving DecidableEq, Repr

/-- The options after flag parsing: the three flags are bound to the fields of
`opts` (lines 121-123); no target name is set yet. -/
def parsedOpts (inv : Invocation) : DescribeOptions :=
  ⟨"", inv.limit.getD defaultDescribeLimit, inv.fzf, inv.last⟩

/-! ## Collaborators and observable events -/

/-- A call that leaves `RunE`. -/
inductive Event where
  | getAllPipelineRuns (limit : Int)
  | validateOpts
  | ask (resource : String) (options : List String)
  | fuzzyAsk (resource : String) (options : List String)
  | fprintf (text : String)
  | clients
  | printObject (group resource name ns : String)
  | printPipelineRunDescription (name : String)
deriving DecidableEq, Repr

/-- Everything `describe.go` calls but does not define.

* `Namespace` is `p.Namespace()`, `Clients` is the error of `p.Clients()`;
* `LookupEnv` is `os.LookupEnv`;
* `GetAllPipelineRuns limit` is `prhelper.GetAllPipelineRuns(p, lOpts, limit)`;
* `ValidateOpts` is the error of `opts.ValidateOpts()`;
* `Ask resource prs` and `FuzzyAsk resource prs` are the single-choice prompts:
  they fail, or yield the name that the prompt stores in
  `opts.PipelineRunName`;
* `PrintObject group resource name ns` and `PrintPipelineRunDescription name`
  are the errors of the two output collaborators. -/
structure World where
  Namespace : String
  LookupEnv : String → Option String
  GetAllPipelineRuns : Int → Except GoError (List String)
  ValidateOpts : DescribeOptions → Option GoError
  ResourceNamePipelineRun : String
  Ask : String → List String → Except GoError String
  FuzzyAsk : String → List String → Except GoError String
  Clients : Option GoError
  PrintObject : String → String → String → String → Option GoError
  PrintPipelineRunDescription : String → Option GoError

/-- How `RunE` ends: it returns an error value (`none` is `nil`), or it panics
on an index out of range. -/
inductive Outcome where
  | returned (err : Option GoError)
  | panicked
deriving DecidableEq, Repr

/-- State after the resolution block (lines 77-105): the calls made, the
options, and `stop = some o` when `RunE` has already ended with `o`. -/
structure Stage where
  trace : List Event
  opts : DescribeOptions
  stop : Option Outcome
deriving DecidableEq, Repr

/-- A finished run of `RunE`. -/
structure Run where
  trace : List Event
  opts : DescribeOptions
  result : Outcome
deriving DecidableEq, Repr

/-! ## The code -/

/-- Function `askPipelineRunName` (describe.go, lines 130-150): the calls made,
the options afterwards and the returned error. -/
def askPipelineRunName (w : World) (opts : DescribeOptions) (prs : List String) :
    List Event × DescribeOptions × Option GoError :=
  match w.ValidateOpts opts with
  | some err => ([.validateOpts], opts, some err)
  | none =>
    if prs.length = 0 then
      ([.validateOpts], opts, some ⟨"no PipelineRuns found"⟩)
    else if opts.Fzf then
      match w.FuzzyAsk w.ResourceNamePipelineRun prs with
      | .error err => ([.validateOpts, .fuzzyAsk w.ResourceNamePipelineRun prs], opts, some err)
      | .ok name =>
        ([.validateOpts, .fuzzyAsk w.ResourceNamePipelineRun prs],
          { opts with PipelineRunName := name }, none)
    else
      match w.Ask w.ResourceNamePipelineRun prs with
      | .error err => ([.validateOpts, .ask w.ResourceNamePipelineRun prs], opts, some err)
      | .ok name =>
        ([.validateOpts, .ask w.ResourceNamePipelineRun prs],
          { opts with PipelineRunName := name }, none)

/-- Assignment `opts.PipelineRunName = strings.Fields(prs[0])[0]` (lines 85 and
101), after the list call `call`. -/
def takeFirstField (call : Event) (opts : DescribeOptions) (prs : List String) : Stage :=
  match index prs 0 with
  | none => ⟨[call], opts, some .panicked⟩
  | some pr =>
    match index (Fields pr) 0 with
    | none => ⟨[call], opts, some .panicked⟩
    | some name => ⟨[call], { opts with PipelineRunName := name }, none⟩

/-- The resolution block of `RunE` (describe.go, lines 77-105). -/
def resolveTarget (w : World) (opts : DescribeOptions) (args : List String) : Stage :=
  if args.length = 0 then
    if !opts.Last then
      match w.GetAllPipelineRuns opts.Limit with
      | .error err => ⟨[.getAllPipelineRuns opts.Limit], opts, some (.returned (some err))⟩
      | .ok prs =>
        if prs.length = 1 then
          takeFirstField (.getAllPipelineRuns opts.Limit) opts prs
        else
          match askPipelineRunName w opts prs with
          | (t, opts1, some err) =>
            ⟨.getAllPipelineRuns opts.Limit :: t, opts1, some (.returned (some err))⟩
          | (t, opts1, none) => ⟨.getAllPipelineRuns opts.Limit :: t, opts1, none⟩
    else
      match w.GetAllPipelineRuns 1 with
      | .error err => ⟨[.getAllPipelineRuns 1], opts, some (.returned (some err))⟩
      | .ok prs =>
        if prs.length = 0 then
          ⟨[.getAllPipelineRuns 1,
              .fprintf ("No PipelineRuns present in namespace " ++ w.Namespace ++ "\n")],
            opts, some (.returned none)⟩
        else takeFirstField (.getAllPipelineRuns 1) opts prs
  else
    match index args 0 with
    | none => ⟨[], opts, some .panicked⟩
    | some name => ⟨[], { opts with PipelineRunName := name }, none⟩

/-- Lines 71-75: when `--fzf` is not set, the presence of the environment
variable `TKN_USE_FZF` switches fuzzy mode on. -/
def applyFzfEnv (w : World) (opts : DescribeOptions) : DescribeOptions :=
  if !opts.Fzf then
    match w.LookupEnv "TKN_USE_FZF" with
    | some _ => { opts with Fzf := true }
    | none => opts
  else opts

/-- Lines 107-117: obtain the clients, then hand the resolved name to the
generic object printer (a structured output was requested) or to the
description renderer. -/
def render (w : World) (output : String) (st : Stage) : Run :=
  match w.Clients with
  | some err => ⟨st.trace ++ [.clients], st.opts, .returned (some err)⟩
  | none =>
    if output ≠ "" then
      ⟨st.trace ++ [.clients,
          .printObject "tekton.dev" "pipelineruns" st.opts.PipelineRunName w.Namespace],
        st.opts,
        .returned (w.PrintObject "tekton.dev" "pipelineruns" st.opts.PipelineRunName w.Namespace)⟩
    else
      ⟨st.trace ++ [.clients, .printPipelineRunDescription st.opts.PipelineRunName],
        st.opts, .returned (w.PrintPipelineRunDescription st.opts.PipelineRunName)⟩

/-- The `RunE` closure of `describeCommand` (describe.go, lines 60-118). -/
def RunE (w : World) (inv : Invocation) : Run :=
  match GetString (localFlags inv) "output" with
  | .error err =>
    ⟨[], parsedOpts inv, .returned (some ⟨"output option not set properly: " ++ err.msg⟩)⟩
  | .ok output =>
    let st := resolveTarget w (applyFzfEnv w (parsedOpts inv)) inv.args
    match st.stop with
    | some o => ⟨st.trace, st.opts, o⟩
    | none => render w output st

/-! ## Trace observations -/

/-- The event is a list call. -/
def Event.isList : Event → Bool
  | .getAllPipelineRuns _ => true
  | _ => false

/-- The event is the interactive or the fuzzy prompt. -/
def Event.isPrompt : Event → Bool
  | .ask _ _ => true
  | .fuzzyAsk _ _ => true
  | _ => false

/-- The event is a call of one of the two output collaborators. -/
def Event.isRenderer : Event → Bool
  | .printObject _ _ _ _ => true
  | .printPipelineRunDescription _ => true
  | _ => false

/-- The event is a write of `RunE` itself to the output stream. -/
def Event.isWrite : Event → Bool
  | .fprintf _ => true
  | _ => false

/-- Text that `RunE` itself wrote to the output stream. -/
def written : List Event → String
  | [] => ""
  | .fprintf s :: es => s ++ written es
  | _ :: es => written es

/-- The options with which an invocation enters the resolution block: the
parsed flags after the environment switch of lines 71-75. -/
def entryOpts (w : World) (inv : Invocation) : DescribeOptions :=
  applyFzfEnv w (parsedOpts inv)

/-- The resolution block of an invocation, as `RunE` runs it. -/
def resolution (w : World) (inv : Invocation) : Stage :=
  resolveTarget w (entryOpts w inv) inv.args

/-- Error returned when there is nothing to choose from (describe.go, line 137). -/
def NoResourcesFound : GoError := ⟨"no PipelineRuns found"⟩

/-- Fuzzy mode in force during resolution: `--fzf`, or the environment variable
`TKN_USE_FZF` is present (lines 71-75). -/
def fuzzyMode (w : World) (inv : Invocation) : Bool :=
  inv.fzf || (w.LookupEnv "TKN_USE_FZF").isSome

/-- The prompt call that `askPipelineRunName` makes for the given mode
(lines 140-144). -/
def promptEvent (w : World) (fuzzy : Bool) (prs : List String) : Event :=
  if fuzzy then .fuzzyAsk w.ResourceNamePipelineRun prs
  else .ask w.ResourceNamePipelineRun prs

/-- What that prompt answers. -/
def promptAnswer (w : World) (fuzzy : Bool) (prs : List String) : Except GoError String :=
  if fuzzy then w.FuzzyAsk w.ResourceNamePipelineRun prs
  else w.Ask w.ResourceNamePipelineRun prs

/-- The output collaborator that lines 112-117 select for a resolved name. -/
def rendererEvent (w : World) (output name : String) : Event :=
  if output ≠ "" then .printObject "tekton.dev" "pipelineruns" name w.Namespace
  else .printPipelineRunDescription name

/-! ## The table renderer of `list` -/

/-- One row of the listing: a record with its computed age and status. -/
structure ListedRow where
  name : String
  ns : String
  url : String
  age : String
  status : String
deriving DecidableEq, Repr

/-- Header cells: `NAME`, `NAMESPACE` (all-namespaces mode only), `URL`, `AGE`,
`CONDITIONS`. -/
def headerRow (allNamespaces : Bool) : List String :=
  if allNamespaces then ["NAME", "NAMESPACE", "URL", "AGE", "CONDITIONS"]
  else ["NAME", "URL", "AGE", "CONDITIONS"]

/-- Cells of one data row, in header order. -/
def dataRow (allNamespaces : Bool) (r : ListedRow) : List String :=
  if allNamespaces then [r.name, r.ns, r.url, r.age, r.status]
  else [r.name, r.url, r.age, r.status]

/-- Modelled from the spec: the table renderer of the `list` command (spec
section 4.4); `pkg/cmd/eventlistener/list.go`, which holds it and the constant
`emptyMsg`, is not among the sources, only its test is.  An empty record
sequence yields the empty message followed by a newline; otherwise the header
row (unless `noHeaders`) and one row per record, in input order, are handed to
the column aligner `layout`. -/
def Render (emptyMsg : String) (layout : List (List String) → String)
    (records : List ListedRow) (noHeaders allNamespaces : Bool) : String :=
  if records.isEmpty then emptyMsg ++ "\n"
  else
    layout ((if noHeaders then [] else [headerRow allNamespaces])
      ++ records.map (dataRow allNamespaces))

/-! ## Sample sessions -/

/-- A validation that rejects a non-positive `--limit`. -/
def validateLimit (opts : DescribeOptions) : Option GoError :=
  if opts.Limit ≤ 0 then
    some ⟨"limit was " ++ toString opts.Limit ++ " but must be a positive number"⟩
  else none

/-- A prompt whose operator picks the entry at position `i`; the stored name is
its first field. -/
def pick (i : Nat) (prs : List String) : Except GoError String :=
  match index prs i with
  | none => .error ⟨"no selection"⟩
  | some pr =>
    match index (Fields pr) 0 with
    | none => .error ⟨"no selection"⟩
    | some name => .ok name

/-- A session against namespace `default` holding `runs` (newest first): the
list call yields the first `limit` entries, a non-positive limit meaning no
limit; `TKN_USE_FZF` has value `env`; the operator picks the first entry at the
interactive prompt and the second at the fuzzy prompt; clients and output
collaborators succeed. -/
def cluster (runs : List String) (env : Option String) : World :=
  ⟨"default", fun key => if key = "TKN_USE_FZF" then env else none,
    fun limit => .ok (if limit ≤ 0 then runs else runs.take limit.toNat),
    validateLimit, "PipelineRun",
    fun _ prs => pick 0 prs, fun _ prs => pick 1 prs, none,
    fun _ _ _ _ => none, fun _ => none⟩

/-- A session whose backend cannot be reached. -/
def offline : World :=
  ⟨"default", fun _ => none, fun _ => .error ⟨"connection refused"⟩,
    validateLimit, "PipelineRun",
    fun _ prs => pick 0 prs, fun _ prs => pick 1 prs, none,
    fun _ _ _ _ => none, fun _ => none⟩

/-- A session like `cluster runs none`, with an operator who leaves the
interactive prompt without choosing. -/
def aborting (runs : List String) : World :=
  ⟨"default", fun _ => none,
    fun limit => .ok (if limit ≤ 0 then runs else runs.take limit.toNat),
    validateLimit, "PipelineRun",
    fun _ _ => .error ⟨"interrupt"⟩, fun _ prs => pick 1 prs, none,
    fun _ _ _ _ => none, fun _ => none⟩

/-- Two listed runs. -/
def twoRuns : List String :=
  ["build-2 started 2 minutes ago", "build-1 started 1 hour ago"]

/-- Invocation `describe build-9 extra --last --fzf --limit 0`. -/
def explicitCall : Invocation := ⟨true, some 0, true, "", ["build-9", "extra"]⟩

/-- Invocation `describe`. -/
def plainCall : Invocation := ⟨false, none, false, "", []⟩

/-- Invocation `describe --last`. -/
def lastCall : Invocation := ⟨true, none, false, "", []⟩

/-- Invocation `describe --last -o yaml`. -/
def lastYamlCall : Invocation := ⟨true, none, false, "yaml", []⟩

/-- Invocation `describe --limit 0`. -/
def limitZeroCall : Invocation := ⟨false, some 0, false, "", []⟩

/-- Invocation `describe --fzf --limit 0`. -/
def fzfLimitZeroCall : Invocation := ⟨false, some 0, true, "", []⟩

/-- Invocation `describe --last --limit 3`. -/
def lastLimitCall : Invocation := ⟨true, some 3, false, "", []⟩

/-! ## Lemmas about `strings.Fields` -/

theorem fieldsAux_open (cs : List Char) (c : Char) (cur : List Char) :
    fieldsAux cs (c :: cur) =
      ((c :: cur).reverse ++ cs.takeWhile (fun x => !isSpace x))
        :: fieldsAux (cs.dropWhile (fun x => !isSpace x)) [] := by
  induction cs generalizing c cur with
  | nil => simp [fieldsAux]
  | cons d ds ih =>
    cases hd : isSpace d
    · rw [fieldsAux]
      simp only [hd, Bool.false_eq_true, if_false]
      rw [ih d (c :: cur)]
      simp [List.takeWhile, List.dropWhile, hd]
    · rw [fieldsAux]
      simp only [List.takeWhile, List.dropWhile, hd, Bool.not_true, if_true, List.isEmpty_cons,
        Bool.false_eq_true, if_false, List.append_nil]
      rw [fieldsAux.eq_2 [] d ds]
      simp [hd]

theorem fieldsAux_skip (cs : List Char) :
    fieldsAux cs [] = fieldsAux (cs.dropWhile isSpace) [] := by
  induction cs with
  | nil => rfl
  | cons d ds ih =>
    cases hd : isSpace d
    · simp [List.dropWhile, hd]
    · rw [fieldsAux]
      simp [List.dropWhile, hd, ih]

theorem fieldsAux_head (cs : List Char) :
    (fieldsAux cs [])[0]? =
      match cs.dropWhile isSpace with
      | [] => none
      | c :: rest => some (c :: rest.takeWhile (fun x => !isSpace x)) := by
  rw [fieldsAux_skip]
  cases h : cs.dropWhile isSpace with
  | nil => simp [fieldsAux]
  | cons c rest =>
    have hc : isSpace c = false := by
      have := List.head_dropWhile_not isSpace cs (by simp [h])
      simpa [h] using this
    rw [fieldsAux]
    simp [hc, fieldsAux_open]

theorem dropWhile_isSpace_eq_nil (cs : List Char) :
    cs.dropWhile isSpace = [] ↔ ∀ c ∈ cs, isSpace c = true := by
  simp [List.dropWhile_eq_nil_iff]

theorem Fields_head (s : String) :
    index (Fields s) 0 =
      match s.data.dropWhile isSpace with
      | [] => none
      | c :: rest => some (String.mk (c :: rest.takeWhile (fun x => !isSpace x))) := by
  simp only [index, Fields, List.getElem?_map, fieldsAux_head]
  split <;> simp

theorem Fields_head_eq_none (s : String) :
    index (Fields s) 0 = none ↔ ∀ c ∈ s.data, isSpace c = true := by
  rw [Fields_head, ← dropWhile_isSpace_eq_nil]
  split <;> simp_all

theorem Fields_head_some (s : String) (name : String) (h : index (Fields s) 0 = some name) :
    name ≠ "" ∧ (∀ c ∈ name.data, isSpace c = false) := by
  rw [Fields_head] at h
  split at h
  · simp at h
  · rename_i c rest hd
    have hc : isSpace c = false := by
      have := List.head_dropWhile_not isSpace s.data (by simp [hd])
      simpa [hd] using this
    simp only [Option.some.injEq] at h
    subst h
    refine ⟨?_, ?_⟩
    · intro h0
      have := congrArg String.data h0
      simp at this
    · intro x hx
      simp only [List.mem_cons] at hx
      rcases hx with rfl | hx
      · exact hc
      · have := List.mem_takeWhile_imp hx
        simpa using this

/-! ## Lemmas about the stages of `RunE` -/

theorem getString_output (inv : Invocation) :
    GetString (localFlags inv) "output" = .ok inv.output := by
  simp [GetString, localFlags, List.find?]
  
theorem RunE_eq (w : World) (inv : Invocation) :
    RunE w inv =
      match (resolveTarget w (applyFzfEnv w (parsedOpts inv)) inv.args).stop with
      | some o =>
        ⟨(resolveTarget w (applyFzfEnv w (parsedOpts inv)) inv.args).trace,
          (resolveTarget w (applyFzfEnv w (parsedOpts inv)) inv.args).opts, o⟩
      | none => render w inv.output (resolveTarget w (applyFzfEnv w (parsedOpts inv)) inv.args) := by
  simp [RunE, getString_output]

theorem applyFzfEnv_Last (w : World) (opts : DescribeOptions) :
    (applyFzfEnv w opts).Last = opts.Last := by
  unfold applyFzfEnv
  split
  · split <;> rfl
  · rfl

theorem applyFzfEnv_Limit (w : World) (opts : DescribeOptions) :
    (applyFzfEnv w opts).Limit = opts.Limit := by
  unfold applyFzfEnv
  split
  · split <;> rfl
  · rfl

theorem applyFzfEnv_PipelineRunName (w : World) (opts : DescribeOptions) :
    (applyFzfEnv w opts).PipelineRunName = opts.PipelineRunName := by
  unfold applyFzfEnv
  split
  · split <;> rfl
  · rfl

theorem applyFzfEnv_Fzf (w : World) (opts : DescribeOptions) :
    (applyFzfEnv w opts).Fzf = (opts.Fzf || (w.LookupEnv "TKN_USE_FZF").isSome) := by
  unfold applyFzfEnv
  cases hf : opts.Fzf <;> cases he : w.LookupEnv "TKN_USE_FZF" <;> simp [hf]

theorem render_opts (w : World) (output : String) (st : Stage) :
    (render w output st).opts = st.opts := by
  unfold render
  split
  · rfl
  · split <;> rfl

theorem render_filter_isList (w : World) (output : String) (st : Stage) :
    (render w output st).trace.filter Event.isList = st.trace.filter Event.isList := by
  unfold render
  split
  · simp [Event.isList]
  · split <;> simp [Event.isList]

theorem render_filter_isPrompt (w : World) (output : String) (st : Stage) :
    (render w output st).trace.filter Event.isPrompt = st.trace.filter Event.isPrompt := by
  unfold render
  split
  · simp [Event.isPrompt]
  · split <;> simp [Event.isPrompt]

theorem resolveTarget_explicit (w : World) (opts : DescribeOptions) (name : String)
    (rest : List String) :
    resolveTarget w opts (name :: rest) = ⟨[], { opts with PipelineRunName := name }, none⟩ := by
  simp [resolveTarget, index]

theorem Fields_head_data (s name : String) (h : index (Fields s) 0 = some name) :
    name.data = (s.data.dropWhile isSpace).takeWhile (fun c => !isSpace c) := by
  rw [Fields_head] at h
  split at h
  · simp at h
  · rename_i c rest hd
    have hc : isSpace c = false := by
      have := List.head_dropWhile_not isSpace s.data (by simp [hd])
      simpa [hd] using this
    simp only [Option.some.injEq] at h
    subst h
    simp [hd, List.takeWhile, hc]

theorem RunE_eq_resolution (w : World) (inv : Invocation) :
    RunE w inv =
      match (resolution w inv).stop with
      | some o => ⟨(resolution w inv).trace, (resolution w inv).opts, o⟩
      | none => render w inv.output (resolution w inv) :=
  RunE_eq w inv

theorem entryOpts_Last (w : World) (inv : Invocation) : (entryOpts w inv).Last = inv.last :=
  applyFzfEnv_Last w (parsedOpts inv)

theorem entryOpts_Limit (w : World) (inv : Invocation) :
    (entryOpts w inv).Limit = inv.limit.getD defaultDescribeLimit :=
  applyFzfEnv_Limit w (parsedOpts inv)

theorem entryOpts_PipelineRunName (w : World) (inv : Invocation) :
    (entryOpts w inv).PipelineRunName = "" :=
  applyFzfEnv_PipelineRunName w (parsedOpts inv)

theorem entryOpts_Fzf (w : World) (inv : Invocation) :
    (entryOpts w inv).Fzf = (inv.fzf || (w.LookupEnv "TKN_USE_FZF").isSome) :=
  applyFzfEnv_Fzf w (parsedOpts inv)

theorem resolution_zero_records (w : World) (inv : Invocation) (hargs : inv.args = [])
    (hlast : inv.last = false)
    (hlist : w.GetAllPipelineRuns (inv.limit.getD defaultDescribeLimit) = .ok []) :
    resolution w inv = ⟨[.getAllPipelineRuns (inv.limit.getD defaultDescribeLimit), .validateOpts],
      entryOpts w inv,
      some (.returned (some (match w.ValidateOpts (entryOpts w inv) with
        | some verr => verr
        | none => NoResourcesFound)))⟩ := by
  simp only [resolution, resolveTarget, hargs, entryOpts_Last, hlast, entryOpts_Limit, hlist,
    askPipelineRunName]
  cases hv : w.ValidateOpts (entryOpts w inv) <;> simp [NoResourcesFound]

theorem resolution_single_record (w : World) (inv : Invocation) (pr : String)
    (hargs : inv.args = []) (hlast : inv.last = false)
    (hlist : w.GetAllPipelineRuns (inv.limit.getD defaultDescribeLimit) = .ok [pr]) :
    resolution w inv =
      takeFirstField (.getAllPipelineRuns (inv.limit.getD defaultDescribeLimit))
        (entryOpts w inv) [pr] := by
  simp [resolution, resolveTarget, hargs, entryOpts_Last, hlast, entryOpts_Limit, hlist]

theorem resolution_last_record (w : World) (inv : Invocation) (pr : String) (rest : List String)
    (hargs : inv.args = []) (hlast : inv.last = true)
    (hlist : w.GetAllPipelineRuns 1 = .ok (pr :: rest)) :
    resolution w inv = takeFirstField (.getAllPipelineRuns 1) (entryOpts w inv) (pr :: rest) := by
  simp [resolution, resolveTarget, hargs, entryOpts_Last, hlast, hlist]

theorem takeFirstField_trace (call : Event) (opts : DescribeOptions) (prs : List String) :
    (takeFirstField call opts prs).trace = [call] := by
  unfold takeFirstField
  split
  · rfl
  · split <;> rfl

theorem takeFirstField_some (call : Event) (opts : DescribeOptions) (pr name : String)
    (rest : List String) (h : index (Fields pr) 0 = some name) :
    takeFirstField call opts (pr :: rest)
      = ⟨[call], { opts with PipelineRunName := name }, none⟩ := by
  simp only [takeFirstField, index] at h ⊢
  simp [h]

theorem takeFirstField_none (call : Event) (opts : DescribeOptions) (pr : String)
    (rest : List String) (h : index (Fields pr) 0 = none) :
    takeFirstField call opts (pr :: rest) = ⟨[call], opts, some .panicked⟩ := by
  simp only [takeFirstField, index] at h ⊢
  simp [h]

theorem render_result_ne_panicked (w : World) (output : String) (st : Stage) :
    (render w output st).result ≠ .panicked := by
  unfold render
  split
  · simp
  · split <;> simp

theorem render_trace_of_stage (w : World) (output : String) (st : Stage) (e : Event)
    (h : e ∈ (render w output st).trace) :
    e ∈ st.trace ∨ e = .clients ∨ e.isRenderer = true := by
  unfold render at h
  split at h
  · simp at h
    rcases h with h | h
    · exact Or.inl h
    · exact Or.inr (Or.inl h)
  · split at h <;> simp at h <;> rcases h with h | h | h
    · exact Or.inl h
    · exact Or.inr (Or.inl h)
    · exact Or.inr (Or.inr (by simp [h, Event.isRenderer]))
    · exact Or.inl h
    · exact Or.inr (Or.inl h)
    · exact Or.inr (Or.inr (by simp [h, Event.isRenderer]))

theorem RunE_trace_cases (w : World) (inv : Invocation) (e : Event)
    (he : e ∈ (RunE w inv).trace) :
    e ∈ (resolution w inv).trace ∨ e = .clients ∨ e.isRenderer = true := by
  rw [RunE_eq_resolution] at he
  split at he
  · exact Or.inl he
  · exact render_trace_of_stage w inv.output _ e he

theorem RunE_filter_isList (w : World) (inv : Invocation) :
    (RunE w inv).trace.filter Event.isList = (resolution w inv).trace.filter Event.isList := by
  rw [RunE_eq_resolution]
  split
  · rfl
  · exact render_filter_isList w inv.output _

theorem RunE_filter_isPrompt (w : World) (inv : Invocation) :
    (RunE w inv).trace.filter Event.isPrompt
      = (resolution w inv).trace.filter Event.isPrompt := by
  rw [RunE_eq_resolution]
  split
  · rfl
  · exact render_filter_isPrompt w inv.output _

theorem askPipelineRunName_trace (w : World) (opts : DescribeOptions) (prs : List String) :
    ∀ e ∈ (askPipelineRunName w opts prs).1, e.isList = false ∧ e.isRenderer = false := by
  unfold askPipelineRunName
  split
  · simp [Event.isList, Event.isRenderer]
  · split
    · simp [Event.isList, Event.isRenderer]
    · split
      · split <;> simp [Event.isList, Event.isRenderer]
      · split <;> simp [Event.isList, Event.isRenderer]

theorem askPipelineRunName_filter_isList (w : World) (opts : DescribeOptions)
    (prs : List String) : (askPipelineRunName w opts prs).1.filter Event.isList = [] := by
  rw [List.filter_eq_nil_iff]
  intro e he
  simp [(askPipelineRunName_trace w opts prs e he).1]

theorem resolveTarget_filter_isList (w : World) (opts : DescribeOptions) :
    (resolveTarget w opts []).trace.filter Event.isList
      = [.getAllPipelineRuns (if opts.Last then 1 else opts.Limit)] := by
  cases hl : opts.Last
  · simp only [resolveTarget, List.length_nil, if_true, hl, Bool.not_false, Bool.false_eq_true,
      if_false]
    split
    · simp [Event.isList]
    · split
      · simp [takeFirstField_trace, Event.isList]
      · have hask := askPipelineRunName_filter_isList w opts ‹List String›
        split <;> rename_i heq <;> rw [heq] at hask <;>
          simpa [Event.isList] using hask
  · simp only [resolveTarget, List.length_nil, if_true, hl, Bool.not_true, Bool.false_eq_true,
      if_false]
    split
    · simp [Event.isList]
    · split
      · simp [Event.isList]
      · simp [takeFirstField_trace, Event.isList]

theorem resolution_many_records (w : World) (inv : Invocation) (prs : List String)
    (hargs : inv.args = []) (hlast : inv.last = false)
    (hlist : w.GetAllPipelineRuns (inv.limit.getD defaultDescribeLimit) = .ok prs)
    (hone : prs.length ≠ 1) (hzero : prs.length ≠ 0)
    (hvalid : w.ValidateOpts (entryOpts w inv) = none) :
    resolution w inv =
      match promptAnswer w (fuzzyMode w inv) prs with
      | .error err =>
        ⟨[.getAllPipelineRuns (inv.limit.getD defaultDescribeLimit), .validateOpts,
            promptEvent w (fuzzyMode w inv) prs],
          entryOpts w inv, some (.returned (some err))⟩
      | .ok name =>
        ⟨[.getAllPipelineRuns (inv.limit.getD defaultDescribeLimit), .validateOpts,
            promptEvent w (fuzzyMode w inv) prs],
          { entryOpts w inv with PipelineRunName := name }, none⟩ := by
  have hf : (entryOpts w inv).Fzf = fuzzyMode w inv := entryOpts_Fzf w inv
  simp only [resolution, resolveTarget, hargs, entryOpts_Last, hlast, entryOpts_Limit, hlist,
    askPipelineRunName, hvalid, hone, hzero, hf, promptAnswer, promptEvent]
  cases fuzzyMode w inv
  · cases w.Ask w.ResourceNamePipelineRun prs <;> simp
  · cases w.FuzzyAsk w.ResourceNamePipelineRun prs <;> simp

theorem promptEvent_isRenderer (w : World) (fuzzy : Bool) (prs : List String) :
    (promptEvent w fuzzy prs).isRenderer = false := by
  cases fuzzy <;> rfl

theorem promptEvent_isPrompt (w : World) (fuzzy : Bool) (prs : List String) :
    (promptEvent w fuzzy prs).isPrompt = true := by
  cases fuzzy <;> rfl

theorem askPipelineRunName_isWrite (w : World) (opts : DescribeOptions) (prs : List String) :
    ∀ e ∈ (askPipelineRunName w opts prs).1, e.isWrite = false := by
  unfold askPipelineRunName
  split
  · simp [Event.isWrite]
  · split
    · simp [Event.isWrite]
    · split
      · split <;> simp [Event.isWrite]
      · split <;> simp [Event.isWrite]

theorem resolveTarget_isRenderer (w : World) (opts : DescribeOptions) (args : List String) :
    ∀ e ∈ (resolveTarget w opts args).trace, e.isRenderer = false := by
  unfold resolveTarget
  split
  · split
    · split
      · simp [Event.isRenderer]
      · split
        · simp [takeFirstField_trace, Event.isRenderer]
        · have hask := askPipelineRunName_trace w opts ‹List String›
          split <;> rename_i heq <;> rw [heq] at hask <;> intro e he <;>
            simp only [List.mem_cons] at he <;> rcases he with rfl | he
          · rfl
          · exact (hask e he).2
          · rfl
          · exact (hask e he).2
    · split
      · simp [Event.isRenderer]
      · split
        · simp [Event.isRenderer]
        · simp [takeFirstField_trace, Event.isRenderer]
  · split <;> simp

theorem resolveTarget_isWrite (w : World) (opts : DescribeOptions) (args : List String)
    (hstop : (resolveTarget w opts args).stop = none) :
    ∀ e ∈ (resolveTarget w opts args).trace, e.isWrite = false := by
  unfold resolveTarget at hstop ⊢
  split
  · rename_i hlen
    simp only [hlen, if_true] at hstop
    split
    · rename_i hl
      simp only [hl, if_true] at hstop
      split
      · simp [Event.isWrite]
      · split
        · simp [takeFirstField_trace, Event.isWrite]
        · have hask := askPipelineRunName_isWrite w opts ‹List String›
          split <;> rename_i heq <;> rw [heq] at hask <;> intro e he <;>
            simp only [List.mem_cons] at he <;> rcases he with rfl | he
          · rfl
          · exact hask e he
          · rfl
          · exact hask e he
    · rename_i hl
      simp only [hl, if_false] at hstop
      split
      · simp [Event.isWrite]
      · rename_i prs hlist
        simp only [hlist] at hstop
        split
        · rename_i hz
          simp [hz] at hstop
        · simp [takeFirstField_trace, Event.isWrite]
  · split <;> simp

/-! ## The claims -/

/-- C1: when the positional argument list is non-empty, the resolved target
name is the first argument, whatever `--last`, `--fzf`, `--limit` and the
collaborators are; the resolution block makes no call at all, so the run makes
no list call and shows no prompt, and a renderer that is invoked gets that
name. -/
theorem C1_explicit_name_wins (w : World) (inv : Invocation) (name : String)
    (rest : List String) (hargs : inv.args = name :: rest) :
    resolution w inv = ⟨[], { entryOpts w inv with PipelineRunName := name }, none⟩
      ∧ (RunE w inv).opts.PipelineRunName = name
      ∧ (∀ e ∈ (RunE w inv).trace, e.isList = false ∧ e.isPrompt = false)
      ∧ (∀ n, Event.printPipelineRunDescription n ∈ (RunE w inv).trace → n = name)
      ∧ (∀ g r n ns, Event.printObject g r n ns ∈ (RunE w inv).trace → n = name) := by
  have hres : resolution w inv
      = ⟨[], { entryOpts w inv with PipelineRunName := name }, none⟩ := by
    rw [resolution, hargs]
    exact resolveTarget_explicit w (entryOpts w inv) name rest
  rw [RunE_eq_resolution, hres]
  refine ⟨rfl, ?_⟩
  simp only [render]
  split
  · simp [Event.isList, Event.isPrompt]
  · split <;> simp +contextual [Event.isList, Event.isPrompt]

/-- Witness of C1: `describe build-9 extra --last --fzf --limit 0` with
`TKN_USE_FZF` set resolves `build-9` without listing or prompting. -/
theorem C1_witness :
    explicitCall.args = "build-9" :: ["extra"]
      ∧ (RunE (cluster twoRuns (some "1")) explicitCall).opts.PipelineRunName = "build-9"
      ∧ (∀ e ∈ (RunE (cluster twoRuns (some "1")) explicitCall).trace,
          e.isList = false ∧ e.isPrompt = false) :=
  ⟨rfl,
    (C1_explicit_name_wins (cluster twoRuns (some "1")) explicitCall "build-9" ["extra"] rfl).2.1,
    (C1_explicit_name_wins (cluster twoRuns (some "1")) explicitCall "build-9" ["extra"]
      rfl).2.2.1⟩

/-- C2: with no positional name and `--last`, when the list call succeeds with
zero records the run returns nil, its calls are the list call and one write of
the line "No PipelineRuns present in namespace NS" with a newline, no target
name is set, and no output collaborator is invoked. -/
theorem C2_last_without_records (w : World) (inv : Invocation) (hargs : inv.args = [])
    (hlast : inv.last = true) (hlist : w.GetAllPipelineRuns 1 = .ok []) :
    (RunE w inv).result = .returned none
      ∧ (RunE w inv).trace = [.getAllPipelineRuns 1,
          .fprintf ("No PipelineRuns present in namespace " ++ w.Namespace ++ "\n")]
      ∧ written (RunE w inv).trace
          = "No PipelineRuns present in namespace " ++ w.Namespace ++ "\n"
      ∧ (RunE w inv).opts.PipelineRunName = ""
      ∧ (∀ e ∈ (RunE w inv).trace, e.isRenderer = false) := by
  have hres : resolution w inv = ⟨[.getAllPipelineRuns 1,
      .fprintf ("No PipelineRuns present in namespace " ++ w.Namespace ++ "\n")],
      entryOpts w inv, some (.returned none)⟩ := by
    simp [resolution, resolveTarget, hargs, entryOpts_Last, hlast, hlist]
  rw [RunE_eq_resolution, hres]
  simp [written, entryOpts_PipelineRunName, Event.isRenderer]

/-- Witness of C2: `describe --last` in an empty namespace. -/
theorem C2_witness :
    (lastCall.args = [] ∧ lastCall.last = true
        ∧ (cluster [] none).GetAllPipelineRuns 1 = .ok [])
      ∧ (RunE (cluster [] none) lastCall).result = .returned none
      ∧ written (RunE (cluster [] none) lastCall).trace
          = "No PipelineRuns present in namespace default\n" :=
  ⟨⟨rfl, rfl, rfl⟩,
    (C2_last_without_records (cluster [] none) lastCall rfl rfl rfl).1,
    (C2_last_without_records (cluster [] none) lastCall rfl rfl rfl).2.2.1⟩

/-- Counterexample to C3: `describe --limit 0` in an empty namespace.  There is
no positional name, `--last` is not set and the list call succeeds with zero
records, yet the run fails with the error of the option validation, not with
"no PipelineRuns found". -/
theorem C3_counterexample :
    limitZeroCall.args = [] ∧ limitZeroCall.last = false
      ∧ (cluster [] none).GetAllPipelineRuns (limitZeroCall.limit.getD defaultDescribeLimit)
          = .ok []
      ∧ (RunE (cluster [] none) limitZeroCall).result
          = .returned (some ⟨"limit was 0 but must be a positive number"⟩)
      ∧ (RunE (cluster [] none) limitZeroCall).result ≠ .returned (some NoResourcesFound) :=
  ⟨rfl, rfl, rfl, by decide, by decide⟩

/-- C3, amended: with no positional name and `--last` not set, when the list
call succeeds with zero records, the run fails with "no PipelineRuns found" if
the option validation passes and with the validation error if it does not; in
both cases no prompt is shown and no output collaborator is invoked. -/
theorem C3_zero_records_after_validation (w : World) (inv : Invocation) (hargs : inv.args = [])
    (hlast : inv.last = false)
    (hlist : w.GetAllPipelineRuns (inv.limit.getD defaultDescribeLimit) = .ok []) :
    (w.ValidateOpts (entryOpts w inv) = none →
        (RunE w inv).result = .returned (some NoResourcesFound))
      ∧ (∀ verr, w.ValidateOpts (entryOpts w inv) = some verr →
        (RunE w inv).result = .returned (some verr))
      ∧ (∀ e ∈ (RunE w inv).trace, e.isPrompt = false ∧ e.isRenderer = false) := by
  rw [RunE_eq_resolution, resolution_zero_records w inv hargs hlast hlist]
  refine ⟨?_, ?_, ?_⟩
  · intro hv
    simp [hv]
  · intro verr hv
    simp [hv]
  · simp [Event.isPrompt, Event.isRenderer]

/-- Witness of amended C3: `describe` in an empty namespace fails with
"no PipelineRuns found". -/
theorem C3_witness :
    (plainCall.args = [] ∧ plainCall.last = false
        ∧ (cluster [] none).GetAllPipelineRuns (plainCall.limit.getD defaultDescribeLimit)
            = .ok []
        ∧ (cluster [] none).ValidateOpts (entryOpts (cluster [] none) plainCall) = none)
      ∧ (RunE (cluster [] none) plainCall).result
          = .returned (some ⟨"no PipelineRuns found"⟩) :=
  ⟨⟨rfl, rfl, rfl, rfl⟩,
    (C3_zero_records_after_validation (cluster [] none) plainCall rfl rfl rfl).1 rfl⟩

/-- C4: with no positional name and `--last` not set, when the list call
succeeds with exactly one record, no prompt is shown and the option validation
is not called, whatever `--fzf` is and whatever the validation would answer;
the target is the name of that record, its first field. -/
theorem C4_single_record_no_prompt (w : World) (inv : Invocation) (pr : String)
    (hargs : inv.args = []) (hlast : inv.last = false)
    (hlist : w.GetAllPipelineRuns (inv.limit.getD defaultDescribeLimit) = .ok [pr]) :
    (∀ e ∈ (RunE w inv).trace, e.isPrompt = false ∧ e ≠ .validateOpts)
      ∧ (∀ name, index (Fields pr) 0 = some name →
          (resolution w inv).stop = none ∧ (RunE w inv).opts.PipelineRunName = name) := by
  have hres := resolution_single_record w inv pr hargs hlast hlist
  refine ⟨?_, ?_⟩
  · intro e he
    have hin := RunE_trace_cases w inv e he
    rw [hres, takeFirstField_trace] at hin
    rcases hin with h | h | h
    · simp at h
      subst h
      simp [Event.isPrompt]
    · subst h
      simp [Event.isPrompt]
    · cases e <;> simp_all [Event.isPrompt, Event.isRenderer]
  · intro name hname
    rw [RunE_eq_resolution, hres, takeFirstField_some _ _ _ _ _ hname]
    simp [render_opts]

/-- Witness of C4: `describe --fzf --limit 0` against a namespace with one run;
the validation would reject the limit, and the run is resolved all the same. -/
theorem C4_witness :
    (fzfLimitZeroCall.args = [] ∧ fzfLimitZeroCall.last = false
        ∧ (cluster ["build-2 started 2 minutes ago"] none).GetAllPipelineRuns
            (fzfLimitZeroCall.limit.getD defaultDescribeLimit)
            = .ok ["build-2 started 2 minutes ago"]
        ∧ index (Fields "build-2 started 2 minutes ago") 0 = some "build-2")
      ∧ (cluster ["build-2 started 2 minutes ago"] none).ValidateOpts
          (entryOpts (cluster ["build-2 started 2 minutes ago"] none) fzfLimitZeroCall) ≠ none
      ∧ (RunE (cluster ["build-2 started 2 minutes ago"] none)
          fzfLimitZeroCall).opts.PipelineRunName = "build-2" :=
  ⟨⟨rfl, rfl, rfl, by decide⟩, by decide,
    ((C4_single_record_no_prompt (cluster ["build-2 started 2 minutes ago"] none)
      fzfLimitZeroCall "build-2 started 2 minutes ago" rfl rfl rfl).2 "build-2"
        (by decide)).2⟩

/-- Counterexample to C5, at two inputs with no positional name, `--last` not
set and two listed records.  First, `describe` without `--fzf` while
`TKN_USE_FZF` is present: the fuzzy prompt is shown, not the interactive one.
Second, `describe --fzf --limit 0` against a backend that reads limit 0 as no
limit: the option validation fails and no prompt is shown at all. -/
theorem C5_counterexample :
    (plainCall.args = [] ∧ plainCall.last = false ∧ plainCall.fzf = false
        ∧ (cluster twoRuns (some "1")).GetAllPipelineRuns
            (plainCall.limit.getD defaultDescribeLimit) = .ok twoRuns
        ∧ 1 < twoRuns.length
        ∧ (RunE (cluster twoRuns (some "1")) plainCall).trace.filter Event.isPrompt
            = [.fuzzyAsk "PipelineRun" twoRuns])
      ∧ (fzfLimitZeroCall.args = [] ∧ fzfLimitZeroCall.last = false
        ∧ (cluster twoRuns none).GetAllPipelineRuns
            (fzfLimitZeroCall.limit.getD defaultDescribeLimit) = .ok twoRuns
        ∧ 1 < twoRuns.length
        ∧ (RunE (cluster twoRuns none) fzfLimitZeroCall).trace.filter Event.isPrompt = []) :=
  ⟨⟨rfl, rfl, rfl, rfl, by decide, by decide⟩, ⟨rfl, rfl, rfl, by decide, by decide⟩⟩

/-- C5, amended: with no positional name, `--last` not set, a list call that
returns more than one record and an option validation that passes, exactly one
prompt is shown: the fuzzy prompt when `--fzf` is set or the environment
variable `TKN_USE_FZF` is present, the interactive prompt otherwise; it
receives the listed candidates unchanged, and when it yields a name, that name
is the resolved target and the one handed to the output collaborator. -/
theorem C5_prompt_after_validation (w : World) (inv : Invocation) (prs : List String)
    (hargs : inv.args = []) (hlast : inv.last = false)
    (hlist : w.GetAllPipelineRuns (inv.limit.getD defaultDescribeLimit) = .ok prs)
    (hmany : 1 < prs.length) (hvalid : w.ValidateOpts (entryOpts w inv) = none) :
    (RunE w inv).trace.filter Event.isPrompt
        = [if inv.fzf || (w.LookupEnv "TKN_USE_FZF").isSome
            then .fuzzyAsk w.ResourceNamePipelineRun prs
            else .ask w.ResourceNamePipelineRun prs]
      ∧ (∀ name, promptAnswer w (fuzzyMode w inv) prs = .ok name →
          (resolution w inv).stop = none ∧ (RunE w inv).opts.PipelineRunName = name
            ∧ (RunE w inv).trace.filter Event.isRenderer
                = (if w.Clients = none then [rendererEvent w inv.output name] else [])) := by
  have hres := resolution_many_records w inv prs hargs hlast hlist (by omega) (by omega) hvalid
  refine ⟨?_, ?_⟩
  · rw [RunE_filter_isPrompt, hres]
    cases hm : fuzzyMode w inv <;> simp only [fuzzyMode] at hm <;>
      cases promptAnswer w _ prs <;> simp [hm, promptEvent, Event.isPrompt]
  · intro name hname
    rw [RunE_eq_resolution, hres, hname]
    simp only [render, rendererEvent]
    cases hc : w.Clients <;> cases fuzzyMode w inv
    · by_cases ho : inv.output = "" <;> simp [ho, Event.isRenderer, promptEvent]
    · by_cases ho : inv.output = "" <;> simp [ho, Event.isRenderer, promptEvent]
    · simp [Event.isRenderer, promptEvent]
    · simp [Event.isRenderer, promptEvent]

/-- Witness of amended C5: `describe` against two runs, `TKN_USE_FZF` absent:
the interactive prompt is shown once with both candidates, and the operator's
choice `build-2` is the target. -/
theorem C5_witness :
    (plainCall.args = [] ∧ plainCall.last = false
        ∧ (cluster twoRuns none).GetAllPipelineRuns
            (plainCall.limit.getD defaultDescribeLimit) = .ok twoRuns
        ∧ 1 < twoRuns.length
        ∧ (cluster twoRuns none).ValidateOpts (entryOpts (cluster twoRuns none) plainCall)
            = none)
      ∧ (RunE (cluster twoRuns none) plainCall).trace.filter Event.isPrompt
          = [.ask "PipelineRun" twoRuns]
      ∧ (RunE (cluster twoRuns none) plainCall).opts.PipelineRunName = "build-2" :=
  ⟨⟨rfl, rfl, rfl, by decide, rfl⟩,
    (C5_prompt_after_validation (cluster twoRuns none) plainCall twoRuns rfl rfl rfl
      (by decide) rfl).1,
    ((C5_prompt_after_validation (cluster twoRuns none) plainCall twoRuns rfl rfl rfl
      (by decide) rfl).2 "build-2" rfl).2.1⟩

/-- C6: with no positional name, an error of the list call (with or without
`--last`) is returned as it is, and an error of the prompt that is shown is
returned as it is; so is an error of the option validation that precedes the
prompt.  In each case no output collaborator is invoked. -/
theorem C6_errors_propagate (w : World) (inv : Invocation) (hargs : inv.args = []) :
    (∀ err, w.GetAllPipelineRuns (if inv.last then 1 else inv.limit.getD defaultDescribeLimit)
          = .error err →
        (RunE w inv).result = .returned (some err)
          ∧ (∀ e ∈ (RunE w inv).trace, e.isRenderer = false))
      ∧ (∀ prs err, inv.last = false →
          w.GetAllPipelineRuns (inv.limit.getD defaultDescribeLimit) = .ok prs →
          prs.length ≠ 1 → prs.length ≠ 0 → w.ValidateOpts (entryOpts w inv) = none →
          promptAnswer w (fuzzyMode w inv) prs = .error err →
        (RunE w inv).result = .returned (some err)
          ∧ promptEvent w (fuzzyMode w inv) prs ∈ (RunE w inv).trace
          ∧ (∀ e ∈ (RunE w inv).trace, e.isRenderer = false))
      ∧ (∀ prs verr, inv.last = false →
          w.GetAllPipelineRuns (inv.limit.getD defaultDescribeLimit) = .ok prs →
          prs.length ≠ 1 → w.ValidateOpts (entryOpts w inv) = some verr →
        (RunE w inv).result = .returned (some verr)
          ∧ (∀ e ∈ (RunE w inv).trace, e.isRenderer = false)) := by
  refine ⟨?_, ?_, ?_⟩
  · intro err hlist
    have hres : resolution w inv =
        ⟨[.getAllPipelineRuns (if inv.last then 1 else inv.limit.getD defaultDescribeLimit)],
          entryOpts w inv, some (.returned (some err))⟩ := by
      cases hl : inv.last <;> simp only [hl, Bool.false_eq_true, if_false, if_true] at hlist <;>
        simp [resolution, resolveTarget, hargs, entryOpts_Last, hl, entryOpts_Limit, hlist]
    rw [RunE_eq_resolution, hres]
    simp [Event.isRenderer]
  · intro prs err hlast hlist hone hzero hvalid hprompt
    rw [RunE_eq_resolution,
      resolution_many_records w inv prs hargs hlast hlist hone hzero hvalid, hprompt]
    refine ⟨rfl, by simp, ?_⟩
    cases fuzzyMode w inv <;> simp [promptEvent, Event.isRenderer]
  · intro prs verr hlast hlist hone hvalid
    have hres : resolution w inv =
        ⟨[.getAllPipelineRuns (inv.limit.getD defaultDescribeLimit), .validateOpts],
          entryOpts w inv, some (.returned (some verr))⟩ := by
      simp [resolution, resolveTarget, hargs, entryOpts_Last, hlast, entryOpts_Limit, hlist,
        hone, askPipelineRunName, hvalid]
    rw [RunE_eq_resolution, hres]
    simp [Event.isRenderer]

/-- Witness of C6: `describe --last -o yaml` against an unreachable backend
returns the backend error, and `describe` with an operator who leaves the
prompt returns the prompt error. -/
theorem C6_witness :
    (lastYamlCall.args = [] ∧ plainCall.args = [])
      ∧ (RunE offline lastYamlCall).result = .returned (some ⟨"connection refused"⟩)
      ∧ (RunE (aborting twoRuns) plainCall).result = .returned (some ⟨"interrupt"⟩) :=
  ⟨⟨rfl, rfl⟩,
    ((C6_errors_propagate offline lastYamlCall rfl).1 ⟨"connection refused"⟩ rfl).1,
    ((C6_errors_propagate (aborting twoRuns) plainCall rfl).2.1 twoRuns ⟨"interrupt"⟩ rfl rfl
      (by decide) (by decide) rfl rfl).1⟩

/-- C7: with no positional name, the run makes exactly one list call: with
limit 1 when `--last` is set, whatever `--limit` is, and with the value of
`--limit` otherwise, which is 5 when the flag is not given. -/
theorem C7_single_list_call (w : World) (inv : Invocation) (hargs : inv.args = []) :
    (RunE w inv).trace.filter Event.isList
        = [.getAllPipelineRuns (if inv.last then 1 else inv.limit.getD defaultDescribeLimit)]
      ∧ (inv.last = false → inv.limit = none →
          (RunE w inv).trace.filter Event.isList = [.getAllPipelineRuns 5]) := by
  have key : (RunE w inv).trace.filter Event.isList
      = [.getAllPipelineRuns (if inv.last then 1 else inv.limit.getD defaultDescribeLimit)] := by
    rw [RunE_filter_isList, resolution, hargs, resolveTarget_filter_isList, entryOpts_Last,
      entryOpts_Limit]
  refine ⟨key, ?_⟩
  intro hlast hlimit
  rw [key, hlast, hlimit]
  rfl

/-- Witness of C7: `describe --last --limit 3` lists once with limit 1, and
`describe` lists once with limit 5. -/
theorem C7_witness :
    (lastLimitCall.args = [] ∧ plainCall.args = [])
      ∧ (RunE (cluster twoRuns none) lastLimitCall).trace.filter Event.isList
          = [.getAllPipelineRuns 1]
      ∧ (RunE (cluster twoRuns none) plainCall).trace.filter Event.isList
          = [.getAllPipelineRuns 5] :=
  ⟨⟨rfl, rfl⟩,
    (C7_single_list_call (cluster twoRuns none) lastLimitCall rfl).1,
    (C7_single_list_call (cluster twoRuns none) plainCall rfl).2 rfl rfl⟩

/-- C8: when the resolution block leaves a target name and the clients are
obtained, exactly one output collaborator is invoked, with the resolved name:
the generic object printer when the output option is non-empty, the
description renderer otherwise; the run returns what that collaborator
returns, and the run itself writes nothing. -/
theorem C8_one_output_collaborator (w : World) (inv : Invocation)
    (hres : (resolution w inv).stop = none) (hcl : w.Clients = none) :
    (RunE w inv).trace.filter Event.isRenderer
        = [if inv.output ≠ ""
            then .printObject "tekton.dev" "pipelineruns"
              (resolution w inv).opts.PipelineRunName w.Namespace
            else .printPipelineRunDescription (resolution w inv).opts.PipelineRunName]
      ∧ (RunE w inv).result
          = .returned (if inv.output ≠ ""
              then w.PrintObject "tekton.dev" "pipelineruns"
                (resolution w inv).opts.PipelineRunName w.Namespace
              else w.PrintPipelineRunDescription (resolution w inv).opts.PipelineRunName)
      ∧ (∀ e ∈ (RunE w inv).trace, e.isWrite = false) := by
  have hnr : (resolution w inv).trace.filter Event.isRenderer = [] := by
    rw [List.filter_eq_nil_iff]
    intro e he
    simp [resolveTarget_isRenderer w _ _ e he]
  have hnw := resolveTarget_isWrite w (entryOpts w inv) inv.args hres
  rw [RunE_eq_resolution, hres]
  simp only [render, hcl]
  by_cases ho : inv.output = ""
  · simp only [ho, ne_eq, not_true_eq_false, if_false, List.filter_append, hnr, List.nil_append]
    refine ⟨by simp [Event.isRenderer], trivial, ?_⟩
    intro e he
    simp only [List.mem_append, List.mem_cons, List.mem_singleton, List.not_mem_nil,
      or_false] at he
    rcases he with he | rfl | rfl
    · exact hnw e he
    · rfl
    · rfl
  · simp only [ho, ne_eq, not_false_eq_true, if_true, List.filter_append, hnr, List.nil_append]
    refine ⟨by simp [Event.isRenderer], trivial, ?_⟩
    intro e he
    simp only [List.mem_append, List.mem_cons, List.mem_singleton, List.not_mem_nil,
      or_false] at he
    rcases he with he | rfl | rfl
    · exact hnw e he
    · rfl
    · rfl

/-- Witness of C8: `describe --last -o yaml` hands `build-2` to the generic
object printer only, and `describe --last` to the description renderer only. -/
theorem C8_witness :
    ((resolution (cluster twoRuns none) lastYamlCall).stop = none
        ∧ (resolution (cluster twoRuns none) lastCall).stop = none
        ∧ (cluster twoRuns none).Clients = none)
      ∧ (RunE (cluster twoRuns none) lastYamlCall).trace.filter Event.isRenderer
          = [.printObject "tekton.dev" "pipelineruns" "build-2" "default"]
      ∧ (RunE (cluster twoRuns none) lastCall).trace.filter Event.isRenderer
          = [.printPipelineRunDescription "build-2"] :=
  ⟨⟨by decide, by decide, rfl⟩,
    (C8_one_output_collaborator (cluster twoRuns none) lastYamlCall (by decide) rfl).1,
    (C8_one_output_collaborator (cluster twoRuns none) lastCall (by decide) rfl).1⟩

/-- C9: the table renderer of `list` answers an empty record sequence with the
empty message followed by one newline, whatever `--no-headers` and
`--all-namespaces` are; the column aligner, the only producer of header and
data rows, has no part in that output. -/
theorem C9_empty_list_message (emptyMsg : String) (layout : List (List String) → String)
    (noHeaders allNamespaces : Bool) :
    Render emptyMsg layout [] noHeaders allNamespaces = emptyMsg ++ "\n" := by
  simp [Render]

/-- C10: when the target is taken from a listed record without a prompt
(`--last` with at least one record, or no `--last` with exactly one record),
the name is the first white-space-delimited field of the first entry.  If that
entry has a character that is not white space, the index is in bounds and the
name is the first maximal run of such characters: non-empty and free of white
space.  The index is out of bounds, and the run panics, exactly when the entry
is empty or all white space. -/
theorem C10_first_field_of_first_entry (w : World) (inv : Invocation) (pr : String)
    (rest : List String) (hargs : inv.args = [])
    (hpath : (inv.last = true ∧ w.GetAllPipelineRuns 1 = .ok (pr :: rest))
      ∨ (inv.last = false ∧ rest = []
          ∧ w.GetAllPipelineRuns (inv.limit.getD defaultDescribeLimit) = .ok [pr])) :
    ((∃ c ∈ pr.data, isSpace c = false) →
        ∃ name, index (Fields pr) 0 = some name
          ∧ (resolution w inv).stop = none
          ∧ (resolution w inv).opts.PipelineRunName = name
          ∧ name.data = (pr.data.dropWhile isSpace).takeWhile (fun c => !isSpace c)
          ∧ name ≠ "" ∧ (∀ c ∈ name.data, isSpace c = false))
      ∧ (index (Fields pr) 0 = none ↔ ∀ c ∈ pr.data, isSpace c = true)
      ∧ ((RunE w inv).result = .panicked ↔ ∀ c ∈ pr.data, isSpace c = true) := by
  have hres : ∃ call, resolution w inv = takeFirstField call (entryOpts w inv) (pr :: rest) := by
    rcases hpath with ⟨hlast, hlist⟩ | ⟨hlast, hrest, hlist⟩
    · exact ⟨_, resolution_last_record w inv pr rest hargs hlast hlist⟩
    · subst hrest
      exact ⟨_, resolution_single_record w inv pr hargs hlast hlist⟩
  obtain ⟨call, hres⟩ := hres
  refine ⟨?_, Fields_head_eq_none pr, ?_⟩
  · intro hne
    cases hidx : index (Fields pr) 0 with
    | none =>
      obtain ⟨c, hc, hcs⟩ := hne
      have := (Fields_head_eq_none pr).1 hidx c hc
      simp [hcs] at this
    | some name =>
      refine ⟨name, rfl, ?_, ?_, Fields_head_data pr name hidx, Fields_head_some pr name hidx⟩
      · rw [hres, takeFirstField_some _ _ _ _ _ hidx]
      · rw [hres, takeFirstField_some _ _ _ _ _ hidx]
  · rw [← Fields_head_eq_none, RunE_eq_resolution, hres]
    cases hidx : index (Fields pr) 0 with
    | none => simp [takeFirstField_none _ _ _ _ hidx]
    | some name =>
      simp only [takeFirstField_some _ _ _ _ _ hidx, reduceCtorEq, iff_false]
      exact render_result_ne_panicked w inv.output _

/-- Witness of C10: `describe --last` panics on a first entry of two blanks,
and does not panic on the entry of `build-2`. -/
theorem C10_witness :
    (lastCall.args = [] ∧ lastCall.last = true
        ∧ (cluster ["  "] none).GetAllPipelineRuns 1 = .ok ["  "]
        ∧ (cluster twoRuns none).GetAllPipelineRuns 1 = .ok ["build-2 started 2 minutes ago"])
      ∧ (RunE (cluster ["  "] none) lastCall).result = .panicked
      ∧ (∃ name, index (Fields "build-2 started 2 minutes ago") 0 = some name
          ∧ (resolution (cluster twoRuns none) lastCall).stop = none
          ∧ (resolution (cluster twoRuns none) lastCall).opts.PipelineRunName = name
          ∧ name.data = ("build-2 started 2 minutes ago".data.dropWhile isSpace).takeWhile
              (fun c => !isSpace c)
          ∧ name ≠ "" ∧ (∀ c ∈ name.data, isSpace c = false)) :=
  ⟨⟨rfl, rfl, rfl, rfl⟩,
    (C10_first_field_of_first_entry (cluster ["  "] none) lastCall "  " [] rfl
      (Or.inl ⟨rfl, rfl⟩)).2.2.2 (by decide),
    (C10_first_field_of_first_entry (cluster twoRuns none) lastCall
      "build-2 started 2 minutes ago" [] rfl (Or.inl ⟨rfl, rfl⟩)).1 ⟨'b', by decide, by decide⟩⟩

end Tekton
